import Mathlib

/-!
# Verification of the music-visualiser feature extractor and renderers

Shallow embedding of the repository's audio feature-extraction pipeline
(`AudioAnalyzer`), colour utilities (`ColorUtils`), and the state updates of
the two renderers (`Visualizer2D`, `Visualizer3D`).

Numeric values are modelled as exact rationals (`ℚ`); machine time stamps as
`ℤ` milliseconds.  Where the source takes a square root (`Math.sqrt`) or a
fractional power (`Math.pow(x, 0.7)`), the embedding keeps the radicand or
base as an exact rational and the irrational operation is applied at the
statement level via `Real.sqrt` / `Real.rpow`; bridging lemmas relate the
executable rational comparisons to their real-valued originals.
-/

namespace MusicVisualiser

/-- `MathUtils.lerp(start, end, factor) = start + (end - start) * factor`. -/
def lerp (start stop factor : ℚ) : ℚ := start + (stop - start) * factor

/-! ## Beat detection (`AudioAnalyzer.detectBeat`) -/

/-- `this.maxEnergyHistorySize = 43`. -/
def maxEnergyHistorySize : ℕ := 43

/-- `this.beatThreshold = 0.35`. -/
def beatThreshold : ℚ := 7/20

/-- `this.beatMinInterval = 200` (milliseconds). -/
def beatMinInterval : ℤ := 200

/-- The mutable state `detectBeat` reads and writes: the energy history ring
buffer and the wall-clock time stamp of the last firing. -/
structure BeatState where
  energyHistory : List ℚ
  lastBeatTime : ℤ
  deriving Repr, DecidableEq

/-- `this.energyHistory.push(currentEnergy); if (length > max) shift()`:
append at the back, drop the front element when the buffer overflows. -/
def pushEnergy (hist : List ℚ) (e : ℚ) : List ℚ :=
  let h := hist ++ [e]
  if maxEnergyHistorySize < h.length then h.drop 1 else h

/-- `history.reduce((s, e) => s + e, 0) / history.length`. -/
def listMean (l : List ℚ) : ℚ := l.sum / l.length

/-- `history.reduce((s, e) => s + (e - mean)^2, 0) / history.length`. -/
def listVariance (l : List ℚ) : ℚ :=
  (l.map (fun x => (x - listMean l) ^ 2)).sum / l.length

/-- The statistical outlier test
`currentEnergy > averageEnergy + beatThreshold * Math.sqrt(variance)`.
All quantities are rational, so the comparison against the irrational
`0.35·√v` is encoded in its equivalent squared form (for `0 ≤ v`):
`m < e ∧ (0.35)²·v < (e - m)²`.  `beatExceeds_iff_sqrt` proves the
equivalence with the original square-root formulation. -/
def beatExceeds (e m v : ℚ) : Bool :=
  decide (m < e) && decide (beatThreshold ^ 2 * v < (e - m) ^ 2)

/-- `AudioAnalyzer.detectBeat(currentEnergy)` at wall-clock time `now`
(`Date.now()`).  Returns the beat flag and the updated state. -/
def detectBeat (s : BeatState) (currentEnergy : ℚ) (now : ℤ) : Bool × BeatState :=
  let hist := pushEnergy s.energyHistory currentEnergy
  let averageEnergy := listMean hist
  let variance := listVariance hist
  let timeSinceLastBeat := now - s.lastBeatTime
  let beatDetected :=
    beatExceeds currentEnergy averageEnergy variance &&
      decide (beatMinInterval < timeSinceLastBeat)
  if beatDetected then
    (true, { energyHistory := hist, lastBeatTime := now })
  else
    (false, { energyHistory := hist, lastBeatTime := s.lastBeatTime })

/-- The variance of a list is non-negative. -/
lemma listVariance_nonneg (l : List ℚ) : 0 ≤ listVariance l := by
  unfold listVariance
  apply div_nonneg
  · apply List.sum_nonneg
    intro x hx
    simp only [List.mem_map] at hx
    obtain ⟨y, _, rfl⟩ := hx
    positivity
  · exact_mod_cast Nat.zero_le _

/-- `m + (7/20)·√v < e` is equivalent to its squared form, over ℝ. -/
lemma lt_add_mul_sqrt_iff (e m v : ℝ) (hv : 0 ≤ v) :
    m + (7/20) * Real.sqrt v < e ↔ m < e ∧ (7/20) ^ 2 * v < (e - m) ^ 2 := by
  constructor
  · intro h
    have hs := Real.sqrt_nonneg v
    have hme : m < e := by nlinarith
    refine ⟨hme, ?_⟩
    have h1 : (7/20) * Real.sqrt v < e - m := by linarith
    have h2 : ((7/20) * Real.sqrt v) ^ 2 < (e - m) ^ 2 := by
      apply sq_lt_sq' _ h1
      nlinarith
    rwa [mul_pow, Real.sq_sqrt hv] at h2
  · rintro ⟨hme, hsq⟩
    have hpos : 0 < e - m := by linarith
    have h1 : (7/20 : ℝ) * Real.sqrt v = Real.sqrt ((7/20) ^ 2 * v) := by
      rw [Real.sqrt_mul (by positivity), Real.sqrt_sq (by norm_num)]
    have h2 : Real.sqrt ((7/20) ^ 2 * v) < Real.sqrt ((e - m) ^ 2) :=
      Real.sqrt_lt_sqrt (by positivity) hsq
    rw [Real.sqrt_sq hpos.le] at h2
    rw [h1]
    linarith

/-- The squared-form outlier test agrees with the source's
`e > m + 0.35 * Math.sqrt v` whenever `0 ≤ v`. -/
lemma beatExceeds_iff_sqrt (e m v : ℚ) (hv : 0 ≤ v) :
    beatExceeds e m v = true ↔ (m : ℝ) + (7/20) * Real.sqrt v < e := by
  unfold beatExceeds beatThreshold
  rw [Bool.and_eq_true, decide_eq_true_iff, decide_eq_true_iff]
  rw [lt_add_mul_sqrt_iff (e : ℝ) (m : ℝ) (v : ℝ) (by exact_mod_cast hv)]
  constructor
  · rintro ⟨h1, h2⟩
    refine ⟨by exact_mod_cast h1, ?_⟩
    rify at h2
    linarith
  · rintro ⟨h1, h2⟩
    refine ⟨by exact_mod_cast h1, ?_⟩
    rify
    linarith

/-! ## Volume, energy, bands, dominant frequency (`AudioAnalyzer`) -/

/-- `calculateVolume()` computes `Math.sqrt(sum / len)` with
`sum = Σ ((timeData[i] - 128) / 128)²`.  The square root is irrational, so
the embedding keeps the exact radicand; the volume itself is
`Real.sqrt (calculateVolumeSq timeData)`. -/
def calculateVolumeSq (timeData : List ℕ) : ℚ :=
  (timeData.map (fun s : ℕ => (((s : ℚ) - 128) / 128) ^ 2)).sum / timeData.length

/-- `calculateEnergy() = Σ f[i]² / (len · 255 · 255)`. -/
def calculateEnergy (frequencyData : List ℕ) : ℚ :=
  (frequencyData.map (fun f : ℕ => (f : ℚ) * f)).sum /
    (frequencyData.length * 255 * 255)

/-- `this.frequencyBands`, in `Object.keys` insertion order:
fractional `[start, end)` ranges of the bin index range. -/
def frequencyBands : List (String × ℚ × ℚ) :=
  [("bass", 0, 1/10), ("lowMid", 1/10, 1/4), ("mid", 1/4, 1/2),
   ("highMid", 1/2, 3/4), ("treble", 3/4, 1)]

/-- `Math.floor(frac * binCount)` for a fraction in `[0, 1]`. -/
def binOf (frac : ℚ) (binCount : ℕ) : ℕ := (Int.floor (frac * binCount)).toNat

/-- The loop `for (i = startBin; i < endBin; i++) sum += data[i]`
(reads past the end contribute 0; for the ranges used every index is in
range). -/
def rangeSum (data : List ℕ) (startBin endBin : ℕ) : ℚ :=
  ((List.range (endBin - startBin)).map
    (fun j => (data.getD (startBin + j) 0 : ℚ))).sum

/-- `bands[name] = sum / (endBin - startBin) / 255`. -/
def bandValue (data : List ℕ) (startBin endBin : ℕ) : ℚ :=
  rangeSum data startBin endBin / ((endBin : ℚ) - startBin) / 255

/-- `AudioAnalyzer.analyzeFrequencyBands()`: one `(name, value)` pair per
configured band, in insertion order. -/
def analyzeFrequencyBands (frequencyData : List ℕ) : List (String × ℚ) :=
  frequencyBands.map (fun b =>
    (b.1, bandValue frequencyData (binOf b.2.1 frequencyData.length)
      (binOf b.2.2 frequencyData.length)))

/-- The `(startBin, endBin)` pairs of the five bands for a given bin count. -/
def bandRanges (binCount : ℕ) : List (ℕ × ℕ) :=
  frequencyBands.map (fun b => (binOf b.2.1 binCount, binOf b.2.2 binCount))

/-- `AudioUtils.getDominantFrequency`: linear scan for the first strict
maximum, then `maxIndex * sampleRate / fftSize`. -/
def getDominantFrequency (frequencyData : List ℕ) (sampleRate : ℚ)
    (fftSize : ℕ) : ℚ :=
  let scan := frequencyData.enum.foldl
    (fun (acc : ℕ × ℕ) p => if acc.2 < p.2 then (p.1, p.2) else acc) (0, 0)
  scan.1 * sampleRate / fftSize

/-- `this.fftSize = 2048`. -/
def fftSize : ℕ := 2048

/-- The `AnalysisFrame` snapshot (`this.currentAnalysis`).  `volumeSq` holds
the radicand of the RMS volume (see `calculateVolumeSq`); `bands` is the
ordered `(name, value)` association produced by `analyzeFrequencyBands`. -/
structure AnalysisFrame where
  volumeSq : ℚ
  energy : ℚ
  beat : Bool
  dominantFrequency : ℚ
  bands : List (String × ℚ)
  spectrum : List ℕ
  waveform : List ℕ
  deriving Repr, DecidableEq

/-- The constructor's `this.currentAnalysis` default snapshot. -/
def initialAnalysis : AnalysisFrame :=
  { volumeSq := 0, energy := 0, beat := false, dominantFrequency := 0,
    bands := [], spectrum := [], waveform := [] }

/-- The `AudioAnalyzer` state the claims depend on: whether the analyser
node exists, the beat-detection state, the persisted smoothing array, and
the cached analysis snapshot. -/
structure AnalyzerState where
  analyser : Bool
  beatState : BeatState
  lastFrequencyData : Option (List ℚ)
  currentAnalysis : AnalysisFrame
  deriving Repr, DecidableEq

/-- The constructor's state: no analyser node yet, empty energy history,
`lastBeatTime = 0`, no persisted smoothing array, default snapshot. -/
def initialAnalyzerState : AnalyzerState :=
  { analyser := false, beatState := { energyHistory := [], lastBeatTime := 0 },
    lastFrequencyData := none, currentAnalysis := initialAnalysis }

/-- The per-cycle inputs `analyze()` reads: the hardware buffers
(`getByteFrequencyData` / `getByteTimeDomainData`), the wall clock
(`Date.now()`), and the context's sample rate. -/
structure AnalyzeInput where
  frequencyData : List ℕ
  timeData : List ℕ
  now : ℤ
  sampleRate : ℚ
  deriving Repr, DecidableEq

/-- `AudioAnalyzer.analyze()`: early-return of the cached snapshot when the
analyser node is absent, otherwise the full feature-extraction cycle.
Returns the produced frame and the updated state. -/
def analyze (s : AnalyzerState) (inp : AnalyzeInput) : AnalysisFrame × AnalyzerState :=
  if s.analyser = false then (s.currentAnalysis, s)
  else
    let volumeSq := calculateVolumeSq inp.timeData
    let energy := calculateEnergy inp.frequencyData
    let beatResult := detectBeat s.beatState energy inp.now
    let dominantFrequency := getDominantFrequency inp.frequencyData inp.sampleRate fftSize
    let bands := analyzeFrequencyBands inp.frequencyData
    let frame : AnalysisFrame :=
      { volumeSq := volumeSq, energy := energy, beat := beatResult.1,
        dominantFrequency := dominantFrequency, bands := bands,
        spectrum := inp.frequencyData, waveform := inp.timeData }
    (frame, { s with beatState := beatResult.2, currentAnalysis := frame })

/-! ## Smoothed frequency data and the visualization series -/

/-- `getSmoothedFrequencyData(0.7)`: on the first call the raw data is
copied unchanged; afterwards every persisted bin is blended 70% toward the
new raw value (`lerp(last[i], raw[i], 0.7)`).  Returns the new persisted
array (in operation `last` and `raw` always have the same length, the
analyser's bin count). -/
def getSmoothedFrequencyData (last : Option (List ℚ)) (raw : List ℕ) : List ℚ :=
  match last with
  | none => raw.map (fun f : ℕ => (f : ℚ))
  | some prev => (prev.zip raw).map (fun p => lerp p.1 (p.2 : ℚ) (7/10))

/-- The division `sum / binSize` inside `getVisualizationData`.  When
`binSize = 0` (requested length larger than the bin count) the loop sum
is 0 and JS computes `0 / 0 = NaN`; `NaN` is modelled as `none` and
propagates through the subsequent `/ 255` and `Math.pow`.  A non-zero
divisor gives the exact rational quotient. -/
def jsDiv (a b : ℚ) : Option ℚ := if b = 0 then none else some (a / b)

/-- `getVisualizationData(barCount)` before the final
`Math.pow(value, 0.7)` compression: smooth, bucket-average into `barCount`
groups of `binSize = Math.floor(len / barCount)` bins, and normalize by
255.  An entry is `none` exactly when JS would produce `NaN`
(`binSize = 0`); each defined value of the produced series is this list's
entry mapped through `(· ^ (0.7 : ℝ))`, NaN propagating. -/
def getVisualizationDataPre (last : Option (List ℚ)) (raw : List ℕ)
    (barCount : ℕ) : List (Option ℚ) :=
  let smoothedData := getSmoothedFrequencyData last raw
  let binSize := smoothedData.length / barCount
  (List.range barCount).map (fun i =>
    let sum := ((List.range binSize).map
      (fun j => smoothedData.getD (i * binSize + j) 0)).sum
    (jsDiv sum (binSize : ℚ)).map (fun v => v / 255))

/-! ## Claim C1: beat firing condition -/

/-- The beat flag returned by `detectBeat` is the conjunction of the
statistical outlier test and the refractory-interval test. -/
lemma detectBeat_fst (s : BeatState) (e : ℚ) (now : ℤ) :
    (detectBeat s e now).1 =
      (beatExceeds e (listMean (pushEnergy s.energyHistory e))
          (listVariance (pushEnergy s.energyHistory e)) &&
        decide (beatMinInterval < now - s.lastBeatTime)) := by
  unfold detectBeat
  dsimp only
  split
  · next h => simp [h]
  · next h => simpa using h

/-- When `detectBeat` fires, the stored last-firing time stamp becomes
`now`. -/
lemma detectBeat_updates_time (s : BeatState) (e : ℚ) (now : ℤ)
    (h : (detectBeat s e now).1 = true) :
    (detectBeat s e now).2.lastBeatTime = now := by
  unfold detectBeat at h ⊢
  dsimp only at h ⊢
  split at h
  · next hb => simp [hb]
  · next hb => simp at h

/-- C1 (amended): a beat fires exactly when the current energy exceeds the
running mean of the (just-updated) energy history plus 0.35 times the
square root of its variance AND strictly more than 200 ms of wall-clock
time has elapsed since the last firing; when it fires, the last-firing
time stamp is set to the current wall-clock time. -/
theorem detectBeat_characterization (s : BeatState) (e : ℚ) (now : ℤ) :
    ((detectBeat s e now).1 = true ↔
      ((listMean (pushEnergy s.energyHistory e) : ℝ) +
          (7/20) * Real.sqrt (listVariance (pushEnergy s.energyHistory e)) < (e : ℝ) ∧
        beatMinInterval < now - s.lastBeatTime)) ∧
    ((detectBeat s e now).1 = true →
      (detectBeat s e now).2.lastBeatTime = now) := by
  constructor
  · rw [detectBeat_fst, Bool.and_eq_true, decide_eq_true_iff,
      beatExceeds_iff_sqrt _ _ _ (listVariance_nonneg _)]
  · exact detectBeat_updates_time s e now

/-- Witness for C1's amended theorem: with prior history `[0, 0, 0]`,
last beat at time 0, energy 1 at time 201 the beat fires and the time
stamp is updated to 201. -/
theorem detectBeat_characterization_witness :
    (detectBeat { energyHistory := [0, 0, 0], lastBeatTime := 0 } 1 201).1 = true ∧
    (detectBeat { energyHistory := [0, 0, 0], lastBeatTime := 0 } 1 201).2.lastBeatTime = 201 :=
  ⟨by norm_num [detectBeat, pushEnergy, maxEnergyHistorySize, listMean,
      listVariance, beatExceeds, beatThreshold, beatMinInterval],
    (detectBeat_characterization { energyHistory := [0, 0, 0], lastBeatTime := 0 } 1 201).2
      (by norm_num [detectBeat, pushEnergy, maxEnergyHistorySize, listMean,
        listVariance, beatExceeds, beatThreshold, beatMinInterval])⟩

/-- C1 counterexample: with history `[0, 0, 0]`, last beat at time 0 and
energy 1 at time 200, the statistical condition holds and exactly 200 ms
("at least 200 ms") have elapsed, yet no beat fires — the code requires
strictly more than 200 ms. -/
theorem detectBeat_at_least_200_cex :
    ((listMean (pushEnergy [0, 0, 0] 1) : ℝ) +
        (7/20) * Real.sqrt (listVariance (pushEnergy [0, 0, 0] 1)) < ((1 : ℚ) : ℝ)) ∧
    (200 : ℤ) - (0 : ℤ) ≥ (200 : ℤ) ∧
    (detectBeat { energyHistory := [0, 0, 0], lastBeatTime := 0 } 1 200).1 = false := by
  refine ⟨?_, by norm_num, by norm_num [detectBeat, pushEnergy, maxEnergyHistorySize,
    listMean, listVariance, beatExceeds, beatThreshold, beatMinInterval]⟩
  exact (beatExceeds_iff_sqrt 1 (listMean (pushEnergy [0, 0, 0] 1))
    (listVariance (pushEnergy [0, 0, 0] 1)) (listVariance_nonneg _)).1
    (by norm_num [pushEnergy, maxEnergyHistorySize, listMean, listVariance,
      beatExceeds, beatThreshold])

/-! ## Claim C2: silent input -/

/-- The mean of a list of non-negative rationals is non-negative. -/
lemma listMean_nonneg (l : List ℚ) (h : ∀ x ∈ l, 0 ≤ x) : 0 ≤ listMean l := by
  unfold listMean
  exact div_nonneg (List.sum_nonneg h) (by exact_mod_cast Nat.zero_le _)

/-- Every element of the updated history comes from the old history or is
the pushed value. -/
lemma mem_pushEnergy (hist : List ℚ) (e x : ℚ) (hx : x ∈ pushEnergy hist e) :
    x ∈ hist ++ [e] := by
  unfold pushEnergy at hx
  dsimp only at hx
  split at hx
  · exact List.mem_of_mem_drop hx
  · exact hx

/-- Zero energy never fires a beat, whatever the timing, as long as the
history holds only non-negative energies. -/
lemma detectBeat_zero_energy (s : BeatState) (now : ℤ)
    (h : ∀ x ∈ s.energyHistory, 0 ≤ x) : (detectBeat s 0 now).1 = false := by
  rw [detectBeat_fst]
  have hm : 0 ≤ listMean (pushEnergy s.energyHistory 0) := by
    apply listMean_nonneg
    intro x hx
    rcases List.mem_append.1 (mem_pushEnergy _ _ _ hx) with h1 | h1
    · exact h x h1
    · simp only [List.mem_singleton] at h1
      simp [h1]
  unfold beatExceeds
  rw [decide_eq_false (not_lt.2 hm)]
  simp

/-- All-128 waveform gives a zero RMS radicand. -/
lemma calculateVolumeSq_silent (timeData : List ℕ)
    (h : ∀ x ∈ timeData, x = 128) : calculateVolumeSq timeData = 0 := by
  unfold calculateVolumeSq
  have hz : (timeData.map (fun s : ℕ => (((s : ℚ) - 128) / 128) ^ 2)).sum = 0 := by
    apply List.sum_eq_zero
    intro x hx
    rw [List.mem_map] at hx
    obtain ⟨y, hy, rfl⟩ := hx
    rw [h y hy]
    norm_num
  rw [hz, zero_div]

/-- All-zero spectrum gives zero energy. -/
lemma calculateEnergy_silent (frequencyData : List ℕ)
    (h : ∀ x ∈ frequencyData, x = 0) : calculateEnergy frequencyData = 0 := by
  unfold calculateEnergy
  have hz : (frequencyData.map (fun f : ℕ => (f : ℚ) * f)).sum = 0 := by
    apply List.sum_eq_zero
    intro x hx
    rw [List.mem_map] at hx
    obtain ⟨y, hy, rfl⟩ := hx
    rw [h y hy]
    norm_num
  rw [hz, zero_div]

/-- C2: in any analysis cycle whose waveform samples are all 128 and whose
spectrum bins are all 0, the produced frame has volume 0
(`Real.sqrt volumeSq = 0`), energy 0 and `beat = false`. -/
theorem analyze_silent (s : AnalyzerState) (inp : AnalyzeInput)
    (ha : s.analyser = true)
    (hw : ∀ x ∈ inp.timeData, x = 128)
    (hf : ∀ x ∈ inp.frequencyData, x = 0)
    (hh : ∀ x ∈ s.beatState.energyHistory, 0 ≤ x) :
    Real.sqrt ((analyze s inp).1.volumeSq) = 0 ∧
    (analyze s inp).1.energy = 0 ∧
    (analyze s inp).1.beat = false := by
  unfold analyze
  rw [ha]
  simp only [Bool.true_eq_false, if_false]
  refine ⟨?_, calculateEnergy_silent _ hf, ?_⟩
  · rw [calculateVolumeSq_silent _ hw]
    push_cast
    exact Real.sqrt_zero
  · rw [calculateEnergy_silent _ hf]
    exact detectBeat_zero_energy _ _ hh

/-- Witness for C2 at a concrete silent cycle. -/
theorem analyze_silent_witness :
    ({ initialAnalyzerState with analyser := true } : AnalyzerState).analyser = true ∧
    (∀ x ∈ [128, 128], x = 128) ∧ (∀ x ∈ ([0, 0] : List ℕ), x = 0) ∧
    (Real.sqrt ((analyze { initialAnalyzerState with analyser := true }
        ⟨[0, 0], [128, 128], 1000, 44100⟩).1.volumeSq) = 0 ∧
      (analyze { initialAnalyzerState with analyser := true }
        ⟨[0, 0], [128, 128], 1000, 44100⟩).1.energy = 0 ∧
      (analyze { initialAnalyzerState with analyser := true }
        ⟨[0, 0], [128, 128], 1000, 44100⟩).1.beat = false) :=
  ⟨rfl, by decide, by decide,
    analyze_silent { initialAnalyzerState with analyser := true }
      ⟨[0, 0], [128, 128], 1000, 44100⟩ rfl (by decide) (by decide) (by decide)⟩

/-! ## Claim C4: band partition and band means -/

lemma binOf_zero (n : ℕ) : binOf 0 n = 0 := by
  simp [binOf]

lemma binOf_one (n : ℕ) : binOf 1 n = n := by
  simp [binOf]

lemma binOf_mono {a b : ℚ} (n : ℕ) (h : a ≤ b) : binOf a n ≤ binOf b n := by
  unfold binOf
  apply Int.toNat_le_toNat
  apply Int.floor_le_floor
  exact mul_le_mul_of_nonneg_right h (by positivity)

lemma binOf_le_of_le_one {a : ℚ} (n : ℕ) (ha : a ≤ 1) : binOf a n ≤ n := by
  calc binOf a n ≤ binOf 1 n := binOf_mono n ha
  _ = n := binOf_one n

/-- The spec-side mean of the bins with indices in `[s, e)`: sum of the
`drop`/`take` slice divided by its length. -/
def meanSlice (data : List ℕ) (s e : ℕ) : ℚ :=
  (((data.drop s).take (e - s)).map (fun x : ℕ => (x : ℚ))).sum /
    (((data.drop s).take (e - s)).length)

/-- The indexed loop sum over `[s, s + k)` equals the slice sum. -/
lemma range_getD_sum_eq_slice (data : List ℕ) (s k : ℕ) (h : s + k ≤ data.length) :
    ((List.range k).map (fun j => (data.getD (s + j) 0 : ℚ))).sum
      = (((data.drop s).take k).map (fun x : ℕ => (x : ℚ))).sum := by
  induction k with
  | zero => simp
  | succ k ih =>
    rw [List.range_succ, List.map_append, List.sum_append, ih (by omega)]
    rw [List.map_take, List.map_take]
    have hk : k < ((data.drop s).map (fun x : ℕ => (x : ℚ))).length := by
      simp [List.length_drop]
      omega
    rw [List.sum_take_succ _ k hk]
    simp only [List.map_cons, List.map_nil, List.sum_cons, List.sum_nil, add_zero]
    congr 1
    have hsk : s + k < data.length := by omega
    have hk' : k < (data.drop s).length := by
      rw [List.length_drop]
      omega
    rw [List.getElem_map, List.getElem_drop, List.getD_eq_getElem data 0 hsk]

/-- `bandValue` (the loop sum divided by `endBin - startBin` and by 255) is
the slice mean divided by 255, whenever the range is well-formed. -/
lemma bandValue_eq_meanSlice (data : List ℕ) (s e : ℕ) (hse : s ≤ e)
    (he : e ≤ data.length) :
    bandValue data s e = meanSlice data s e / 255 := by
  unfold bandValue meanSlice rangeSum
  rw [range_getD_sum_eq_slice data s (e - s) (by omega)]
  have hlen : ((data.drop s).take (e - s)).length = e - s := by
    rw [List.length_take, List.length_drop]
    omega
  rw [hlen]
  have hcast : ((e : ℚ) - s) = ((e - s : ℕ) : ℚ) := by
    push_cast [hse]
    ring
  rw [hcast]

/-- C4: the five band ranges are contiguous (each ends where the next
starts), start at bin 0, end at the bin count, cover every bin exactly
once, and each produced band value is the mean magnitude of the bins in
its range divided by 255. -/
theorem analyzeFrequencyBands_partition (spectrum : List ℕ) :
    (∀ j, j < spectrum.length →
      (bandRanges spectrum.length).countP (fun r => decide (r.1 ≤ j ∧ j < r.2)) = 1) ∧
    List.Chain' (fun r r' : ℕ × ℕ => r.2 = r'.1) (bandRanges spectrum.length) ∧
    ((bandRanges spectrum.length).map Prod.fst).head? = some 0 ∧
    ((bandRanges spectrum.length).map Prod.snd).getLast? = some spectrum.length ∧
    analyzeFrequencyBands spectrum =
      frequencyBands.map (fun b =>
        (b.1, meanSlice spectrum (binOf b.2.1 spectrum.length)
          (binOf b.2.2 spectrum.length) / 255)) := by
  set n := spectrum.length with hn
  have m1 : binOf (0 : ℚ) n ≤ binOf (1/10) n := binOf_mono n (by norm_num)
  have m2 : binOf (1/10 : ℚ) n ≤ binOf (1/4) n := binOf_mono n (by norm_num)
  have m3 : binOf (1/4 : ℚ) n ≤ binOf (1/2) n := binOf_mono n (by norm_num)
  have m4 : binOf (1/2 : ℚ) n ≤ binOf (3/4) n := binOf_mono n (by norm_num)
  have m5 : binOf (3/4 : ℚ) n ≤ binOf 1 n := binOf_mono n (by norm_num)
  refine ⟨?_, ?_, ?_, ?_, ?_⟩
  · intro j hj
    simp only [bandRanges, frequencyBands, List.map_cons, List.map_nil,
      List.countP_cons, List.countP_nil, decide_eq_true_eq, binOf_zero, binOf_one]
    rw [binOf_zero, binOf_one] at *
    split_ifs <;> omega
  · simp [bandRanges, frequencyBands]
  · simp [bandRanges, frequencyBands, binOf_zero]
  · simp [bandRanges, frequencyBands, binOf_one]
  · unfold analyzeFrequencyBands
    apply List.map_congr_left
    intro b hb
    simp only [frequencyBands, List.mem_cons, List.not_mem_nil, or_false] at hb
    rcases hb with rfl | rfl | rfl | rfl | rfl <;>
      exact congrArg _ (bandValue_eq_meanSlice spectrum _ _
        (binOf_mono _ (by norm_num)) (binOf_le_of_le_one _ (by norm_num)))

/-- Witness for C4 at a concrete spectrum of 20 bins, checking bin 7's
unique covering band and the produced band association. -/
theorem analyzeFrequencyBands_partition_witness :
    (7 < (List.replicate 20 3).length) ∧
    (bandRanges (List.replicate 20 3).length).countP
      (fun r => decide (r.1 ≤ 7 ∧ 7 < r.2)) = 1 :=
  ⟨by decide, (analyzeFrequencyBands_partition (List.replicate 20 3)).1 7 (by decide)⟩

/-! ## Claim C3: the visualization series -/

/-- Smoothed bins stay within the byte magnitude range `[0, 255]`. -/
lemma getSmoothedFrequencyData_bounds (prev : List ℚ) (raw : List ℕ)
    (hprev : ∀ x ∈ prev, 0 ≤ x ∧ x ≤ 255) (hraw : ∀ x ∈ raw, x ≤ 255) :
    ∀ y ∈ getSmoothedFrequencyData (some prev) raw, 0 ≤ y ∧ y ≤ 255 := by
  intro y hy
  unfold getSmoothedFrequencyData at hy
  rw [List.mem_map] at hy
  obtain ⟨⟨a, b⟩, hp, rfl⟩ := hy
  obtain ⟨ha, hb⟩ := List.of_mem_zip hp
  obtain ⟨ha0, ha255⟩ := hprev a ha
  have hb255 : (b : ℚ) ≤ 255 := by exact_mod_cast hraw b hb
  have hb0 : (0 : ℚ) ≤ b := by positivity
  unfold lerp
  constructor <;> nlinarith

/-- `getD` with default 0 of a `[0, 255]`-bounded list is itself bounded. -/
lemma getD_bounds (l : List ℚ) (hl : ∀ y ∈ l, 0 ≤ y ∧ y ≤ 255) (i : ℕ) :
    0 ≤ l.getD i 0 ∧ l.getD i 0 ≤ 255 := by
  by_cases h : i < l.length
  · rw [List.getD_eq_getElem l 0 h]
    exact hl _ (List.getElem_mem h)
  · rw [List.getD_eq_default l 0 (by omega)]
    norm_num

/-- When the bucket size is non-zero, every entry of the pre-compression
series is a defined value in `[0, 1]`. -/
lemma getVisualizationDataPre_mem (prev : List ℚ) (raw : List ℕ) (n : ℕ)
    (hbin : (getSmoothedFrequencyData (some prev) raw).length / n ≠ 0)
    (hprev : ∀ x ∈ prev, 0 ≤ x ∧ x ≤ 255) (hraw : ∀ x ∈ raw, x ≤ 255) :
    ∀ e ∈ getVisualizationDataPre (some prev) raw n,
      ∃ v : ℚ, e = some v ∧ 0 ≤ v ∧ v ≤ 1 := by
  intro e he
  unfold getVisualizationDataPre at he
  simp only [List.mem_map, List.mem_range] at he
  obtain ⟨i, _, rfl⟩ := he
  have hterm := getD_bounds (getSmoothedFrequencyData (some prev) raw)
    (getSmoothedFrequencyData_bounds prev raw hprev hraw)
  set S := getSmoothedFrequencyData (some prev) raw with hS
  set b := S.length / n with hb
  have h0 : 0 ≤ ((List.range b).map (fun j => S.getD (i * b + j) 0)).sum := by
    apply List.sum_nonneg
    intro x hx
    rw [List.mem_map] at hx
    obtain ⟨j, _, rfl⟩ := hx
    exact (hterm _).1
  have h1 : ((List.range b).map (fun j => S.getD (i * b + j) 0)).sum ≤ b * 255 := by
    have hc := List.sum_le_card_nsmul
      ((List.range b).map (fun j => S.getD (i * b + j) 0)) 255 ?_
    · simpa [nsmul_eq_mul] using hc
    · intro x hx
      rw [List.mem_map] at hx
      obtain ⟨j, _, rfl⟩ := hx
      exact (hterm _).2
  have hbq : (0 : ℚ) < b := by
    have : 0 < b := Nat.pos_of_ne_zero hbin
    exact_mod_cast this
  refine ⟨((List.range b).map (fun j => S.getD (i * b + j) 0)).sum / b / 255,
    ?_, ?_, ?_⟩
  · unfold jsDiv
    rw [if_neg (by exact_mod_cast hbq.ne'), Option.map_some']
  · positivity
  · rw [div_le_one (by norm_num), div_le_iff₀ hbq]
    calc ((List.range b).map (fun j => S.getD (i * b + j) 0)).sum
        ≤ b * 255 := h1
      _ = 255 * b := by ring

/-- C3 (amended): for every requested length `n` with
`1 ≤ n ≤ bin count`, the produced series (bucket means of the
70/30-blended smoothed spectrum, normalized by 255 and compressed through
the exponent 0.7) has exactly `n` entries, each defined and in `[0, 1]`;
the persisted smoothing state is blended 30% retained / 70% new.  For
`n` above the bin count the bucket size floors to 0 and the entries are
NaN (see the counterexample). -/
theorem getVisualizationData_spec (prev : List ℚ) (raw : List ℕ) (n : ℕ)
    (hn : 1 ≤ n) (hn2 : n ≤ raw.length)
    (hlen : prev.length = raw.length)
    (hprev : ∀ x ∈ prev, 0 ≤ x ∧ x ≤ 255)
    (hraw : ∀ x ∈ raw, x ≤ 255) :
    (getVisualizationDataPre (some prev) raw n).length = n ∧
    (∀ i, i < prev.length →
      (getSmoothedFrequencyData (some prev) raw).getD i 0
        = (3/10) * prev.getD i 0 + (7/10) * (raw.getD i 0 : ℚ)) ∧
    (∀ e ∈ getVisualizationDataPre (some prev) raw n, ∃ v : ℚ,
      e = some v ∧ 0 ≤ v ∧ v ≤ 1 ∧
      0 ≤ (v : ℝ) ^ (7/10 : ℝ) ∧ (v : ℝ) ^ (7/10 : ℝ) ≤ 1) := by
  have hSlen : (getSmoothedFrequencyData (some prev) raw).length = raw.length := by
    unfold getSmoothedFrequencyData
    simp [hlen]
  have hbin : (getSmoothedFrequencyData (some prev) raw).length / n ≠ 0 := by
    rw [hSlen]
    have h1 : 1 ≤ raw.length / n := (Nat.one_le_div_iff (by omega)).2 hn2
    omega
  refine ⟨by simp [getVisualizationDataPre], ?_, ?_⟩
  · intro i hi
    unfold getSmoothedFrequencyData
    have hizip : i < (prev.zip raw).length := by
      rw [List.length_zip]
      omega
    rw [List.getD_eq_getElem _ 0 (by rw [List.length_map]; exact hizip)]
    rw [List.getElem_map]
    have hiP : i < prev.length := hi
    have hiR : i < raw.length := by omega
    have hz : (prev.zip raw)[i] = (prev[i], raw[i]) := List.getElem_zip
    rw [hz]
    unfold lerp
    rw [List.getD_eq_getElem prev 0 hiP, List.getD_eq_getElem raw 0 hiR]
    ring
  · intro e he
    obtain ⟨v, hv, hv0, hv1⟩ :=
      getVisualizationDataPre_mem prev raw n hbin hprev hraw e he
    have hv0' : (0 : ℝ) ≤ v := by exact_mod_cast hv0
    have hv1' : (v : ℝ) ≤ 1 := by exact_mod_cast hv1
    exact ⟨v, hv, hv0, hv1, Real.rpow_nonneg hv0' _,
      Real.rpow_le_one hv0' hv1' (by norm_num)⟩

/-- Witness for C3 at `prev = [0]`, `raw = [0]`, `n = 1`. -/
theorem getVisualizationData_spec_witness :
    ((1 : ℕ) ≤ 1) ∧ ((1 : ℕ) ≤ ([0] : List ℕ).length) ∧
    ((getVisualizationDataPre (some [(0 : ℚ)]) [0] 1).length = 1 ∧
    (∀ i, i < [(0 : ℚ)].length →
      (getSmoothedFrequencyData (some [(0 : ℚ)]) [0]).getD i 0
        = (3/10) * [(0 : ℚ)].getD i 0 + (7/10) * (([0].getD i 0 : ℕ) : ℚ)) ∧
    (∀ e ∈ getVisualizationDataPre (some [(0 : ℚ)]) [0] 1, ∃ v : ℚ,
      e = some v ∧ 0 ≤ v ∧ v ≤ 1 ∧
      0 ≤ (v : ℝ) ^ (7/10 : ℝ) ∧ (v : ℝ) ^ (7/10 : ℝ) ≤ 1)) :=
  ⟨le_refl 1, by decide,
    getVisualizationData_spec [(0 : ℚ)] [0] 1 (le_refl 1) (by decide) rfl
      (by norm_num) (by norm_num)⟩

/-- C3 counterexample: with the operational 1024-bin spectrum and a
requested length of 1025, `binSize = Math.floor(1024 / 1025) = 0`, and
the produced entry is the JS result `0 / 0 = NaN` (modelled `none`), not
a number in `[0, 1]` — refuting the original claim's "for every requested
length n ≥ 1 ... each lying in [0, 1]". -/
theorem getVisualizationData_overlong_cex :
    (getVisualizationDataPre (some (List.replicate 1024 (0 : ℚ)))
      (List.replicate 1024 0) 1025).length = 1025 ∧
    none ∈ getVisualizationDataPre (some (List.replicate 1024 (0 : ℚ)))
      (List.replicate 1024 0) 1025 := by
  have hS : (getSmoothedFrequencyData (some (List.replicate 1024 (0 : ℚ)))
      (List.replicate 1024 0)).length = 1024 := by
    unfold getSmoothedFrequencyData
    rw [List.length_map, List.length_zip, List.length_replicate,
      List.length_replicate, min_self]
  constructor
  · unfold getVisualizationDataPre
    dsimp only
    rw [List.length_map, List.length_range]
  · unfold getVisualizationDataPre
    dsimp only
    refine List.mem_map.2 ⟨0, List.mem_range.2 (by norm_num), ?_⟩
    rw [hS]
    norm_num
    simp [jsDiv]

/-! ## Claim C10: analyze before initialization -/

/-- C10: with no analyser node, `analyze` returns the cached snapshot and
leaves the state untouched; the constructor's cached snapshot is the
default frame (volume 0, energy 0, no beat, dominant frequency 0, empty
bands, spectrum and waveform). -/
theorem analyze_without_analyser (s : AnalyzerState) (inp : AnalyzeInput)
    (h : s.analyser = false) :
    analyze s inp = (s.currentAnalysis, s) ∧
    initialAnalyzerState.currentAnalysis =
      { volumeSq := 0, energy := 0, beat := false, dominantFrequency := 0,
        bands := [], spectrum := [], waveform := [] } := by
  refine ⟨?_, rfl⟩
  unfold analyze
  rw [h]
  simp

/-- Witness for C10 on the freshly constructed state. -/
theorem analyze_without_analyser_witness :
    initialAnalyzerState.analyser = false ∧
    analyze initialAnalyzerState ⟨[1, 2], [3, 4], 5, 44100⟩
      = (initialAnalyzerState.currentAnalysis, initialAnalyzerState) :=
  ⟨rfl, (analyze_without_analyser initialAnalyzerState ⟨[1, 2], [3, 4], 5, 44100⟩ rfl).1⟩

/-! ## ColorUtils (`generateMoodPalette`, claim C8) -/

/-- `this.modes.length = 5` (`bars, circles, waves, particles, spiral`). -/
def modesCount : ℕ := 5

/-- The visual-state fields of `Visualizer2D` that `updateVisualState`
reads and writes. -/
structure V2DVisualState where
  beatIntensity : ℚ
  pulseScale : ℚ
  colorTransition : ℚ
  currentColorIndex : ℕ
  currentMode : ℕ
  modeTransition : ℚ
  gradientAngle : ℚ
  deriving Repr, DecidableEq

/-- `Visualizer2D.switchMode()`. -/
def switchMode (s : V2DVisualState) : V2DVisualState :=
  { s with currentMode := (s.currentMode + 1) % modesCount, modeTransition := 1 }

/-- `Visualizer2D.updateVisualState(analysis)`.  `r` is the `Math.random()`
draw used for the 10% mode-switch chance and `paletteLength` is
`this.colorPalette.length`.  Note the decay multiplication
`beatIntensity *= 0.95` runs on every frame, after the beat branch. -/
def updateVisualState (s : V2DVisualState) (beat : Bool) (energy r : ℚ)
    (paletteLength : ℕ) : V2DVisualState :=
  let s := if beat then
      (let s' := { s with beatIntensity := 1, pulseScale := 6/5 }
       if r < 1/10 then switchMode s' else s')
    else s
  let s := { s with beatIntensity := s.beatIntensity * (19/20),
                    pulseScale := lerp s.pulseScale 1 (1/10) }
  let s := { s with colorTransition := s.colorTransition + 1/100 }
  let s := if 1 ≤ s.colorTransition then
      { s with colorTransition := 0,
               currentColorIndex := (s.currentColorIndex + 1) % paletteLength }
    else s
  { s with gradientAngle := s.gradientAngle + energy * (1/50) }

/-- The fields of `Visualizer3D` touched by the beat-intensity envelope in
`animate` / `updateVisuals`. -/
structure V3DFrameState where
  beatIntensity : ℚ
  time : ℚ
  deriving Repr, DecidableEq

/-- The time/beat-intensity portion of one `Visualizer3D.animate` frame:
`time += 0.016`; `updateVisuals` sets the intensity to 1 on a beat frame;
then `animate` multiplies by `beatDecay = 0.95` unconditionally (the
geometry, light and camera updates do not write these fields). -/
def animate3DStep (s : V3DFrameState) (beat : Bool) : V3DFrameState :=
  let s := { s with time := s.time + 2/125 }
  let s := if beat then { s with beatIntensity := 1 } else s
  { s with beatIntensity := s.beatIntensity * (19/20) }

/-- C5 (amended): in both renderers the per-frame update sets the
beat-intensity to 1 on a beat frame and then multiplies by the decay 0.95
on every frame, beat or not; so immediately after a beat frame's update
the beat-intensity equals 0.95, and on a non-beat frame it equals the old
value times 0.95. -/
theorem beat_intensity_update (s : V2DVisualState) (s3 : V3DFrameState)
    (beat : Bool) (energy r : ℚ) (paletteLength : ℕ) :
    (updateVisualState s beat energy r paletteLength).beatIntensity
      = (if beat then 1 else s.beatIntensity) * (19/20) ∧
    (animate3DStep s3 beat).beatIntensity
      = (if beat then 1 else s3.beatIntensity) * (19/20) := by
  constructor
  · unfold updateVisualState switchMode
    cases beat <;> dsimp only <;> split_ifs <;> rfl
  · unfold animate3DStep
    cases beat <;> dsimp only <;> rfl

/-- C5 counterexample: a beat frame whose update leaves the 2D renderer's
beat-intensity at 0.95, not 1 (the decay multiplication is unconditional,
contrary to "only on non-beat frames"). -/
theorem beat_intensity_after_beat_cex :
    (updateVisualState
        { beatIntensity := 1/2, pulseScale := 1, colorTransition := 0,
          currentColorIndex := 0, currentMode := 0, modeTransition := 0,
          gradientAngle := 0 } true 0 1 4).beatIntensity = 19/20 ∧
    ((19 : ℚ)/20) ≠ 1 := by
  constructor
  · norm_num [updateVisualState, switchMode]
  · norm_num

/-! ## Particle pool (`Visualizer2D`, claim C6) -/

/-- `this.maxParticles = 150`. -/
def maxParticles : ℕ := 150

/-- One pooled particle. -/
structure Particle where
  x : ℚ
  y : ℚ
  vx : ℚ
  vy : ℚ
  size : ℚ
  life : ℚ
  maxLife : ℚ
  decay : ℚ
  deriving Repr, DecidableEq

/-- `Visualizer2D.initializeParticles()`: 150 particles with random
fields; `rand k` models the k-th `Math.random()` draw. -/
def initParticles (rand : ℕ → ℚ) (width height : ℚ) : List Particle :=
  (List.range maxParticles).map (fun i =>
    { x := rand (8*i) * width, y := rand (8*i+1) * height,
      vx := (rand (8*i+2) - 1/2) * 2, vy := (rand (8*i+3) - 1/2) * 2,
      size := rand (8*i+4) * 3 + 1, life := rand (8*i+5),
      maxLife := rand (8*i+6) * (1/2) + 1/2,
      decay := rand (8*i+7) * (1/50) + 1/200 })

/-- The state mutation `renderParticles` performs on one particle:
advance position by velocity plus audio influence, decrement life,
respawn in place on expiry (`life ≤ 0`) with fresh random position and
velocity, then wrap around the screen edges.  Drawing is output-only. -/
def updateParticle (width height audioInfluence : ℚ) (rand : ℕ → ℚ)
    (rbase : ℕ) (p : Particle) : Particle :=
  let p := { p with x := p.x + p.vx + audioInfluence * 2,
                    y := p.y + p.vy + audioInfluence * 2 }
  let p := { p with life := p.life - p.decay }
  let p := if p.life ≤ 0 then
      { p with life := p.maxLife,
               x := rand rbase * width, y := rand (rbase + 1) * height,
               vx := (rand (rbase + 2) - 1/2) * 2,
               vy := (rand (rbase + 3) - 1/2) * 2 }
    else p
  let p := if p.x < 0 then { p with x := width } else p
  let p := if width < p.x then { p with x := 0 } else p
  let p := if p.y < 0 then { p with y := height } else p
  if height < p.y then { p with y := 0 } else p

/-- The `this.particles.forEach` pass of `renderParticles`: every particle
is updated in place (audio influence comes from `data[index % data.length]`);
none is added or removed. -/
def renderParticlesUpdate (particles : List Particle) (data : List ℚ)
    (width height : ℚ) (rand : ℕ → ℚ) : List Particle :=
  particles.mapIdx (fun index p =>
    updateParticle width height (data.getD (index % data.length) 0)
      rand (4 * index) p)

/-- Any number of rendered frames, each with its own series data and
random draws. -/
def runFrames (width height : ℚ) (frames : List (List ℚ × (ℕ → ℚ)))
    (particles : List Particle) : List Particle :=
  frames.foldl (fun ps f => renderParticlesUpdate ps f.1 width height f.2) particles

lemma renderParticlesUpdate_length (particles : List Particle)
    (data : List ℚ) (width height : ℚ) (rand : ℕ → ℚ) :
    (renderParticlesUpdate particles data width height rand).length
      = particles.length := by
  unfold renderParticlesUpdate
  simp

lemma runFrames_length (width height : ℚ) (frames : List (List ℚ × (ℕ → ℚ))) :
    ∀ particles, (runFrames width height frames particles).length
      = particles.length := by
  induction frames with
  | nil => intro particles; rfl
  | cons f fs ih =>
    intro particles
    unfold runFrames at ih ⊢
    rw [List.foldl_cons, ih, renderParticlesUpdate_length]

/-- An expired particle keeps its slot: the update gives it back
`maxLife` (the wrap steps never touch `life`). -/
lemma updateParticle_respawn (width height a : ℚ) (rand : ℕ → ℚ) (rbase : ℕ)
    (p : Particle) (h : p.life - p.decay ≤ 0) :
    (updateParticle width height a rand rbase p).life = p.maxLife := by
  unfold updateParticle
  dsimp only
  rw [if_pos h]
  split_ifs <;> rfl

/-- C6: after initialization and after any number of rendered frames the
pool holds exactly 150 particles, and an expired particle (life ≤ 0 after
its decay step) is respawned in place with its life reset to `maxLife`. -/
theorem particle_pool_invariant (rand : ℕ → ℚ) (width height : ℚ)
    (frames : List (List ℚ × (ℕ → ℚ))) :
    (initParticles rand width height).length = 150 ∧
    (runFrames width height frames (initParticles rand width height)).length = 150 ∧
    (∀ (w h a : ℚ) (r : ℕ → ℚ) (rb : ℕ) (p : Particle),
      p.life - p.decay ≤ 0 → (updateParticle w h a r rb p).life = p.maxLife) := by
  have hinit : (initParticles rand width height).length = 150 := by
    unfold initParticles maxParticles
    simp
  exact ⟨hinit, by rw [runFrames_length, hinit],
    fun w h a r rb p hp => updateParticle_respawn w h a r rb p hp⟩

/-- Witness for C6: one frame over a 150-particle pool, plus a concrete
expired particle regaining `maxLife`. -/
theorem particle_pool_invariant_witness :
    (runFrames 100 100 [([1/2], fun _ => 1/2)]
      (initParticles (fun _ => 1/2) 100 100)).length = 150 ∧
    ((1 : ℚ) - 2 ≤ 0 ∧
      (updateParticle 100 100 0 (fun _ => 1/2) 0
        { x := 0, y := 0, vx := 0, vy := 0, size := 1, life := 1,
          maxLife := 3, decay := 2 }).life = 3) :=
  ⟨(particle_pool_invariant (fun _ => 1/2) 100 100 [([1/2], fun _ => 1/2)]).2.1,
    by norm_num,
    (particle_pool_invariant (fun _ => 1/2) 100 100 [([1/2], fun _ => 1/2)]).2.2
      100 100 0 (fun _ => 1/2) 0
      { x := 0, y := 0, vx := 0, vy := 0, size := 1, life := 1,
        maxLife := 3, decay := 2 } (by norm_num)⟩

/-! ## Visualizer3D geometry variants (claim C7) -/

/-- The closed set of geometry variants. -/
inductive GeometryType
  | bars
  | sphere
  | tunnel
  | wave
  deriving Repr, DecidableEq

/-- The variant-specific `userData` payload of one Visual Object (the
discrete identity of the object; its geometric position is a pure function
of this payload and is not needed by the claims). -/
inductive VisPayload
  | bars (index : ℕ)
  | sphere (index : ℕ)
  | tunnel (ring point : ℕ)
  | wave (gridX gridZ : ℕ)
  deriving Repr, DecidableEq

/-- The geometry-related state of `Visualizer3D`: the visual objects
attached to the scene graph (`scene.add`/`scene.remove`; lights are
separate objects of a different kind and are modelled outside this list),
the tracking collection `this.visualObjects`, and the active variant. -/
structure SceneState where
  sceneObjs : List VisPayload
  visualObjects : List VisPayload
  geometryType : GeometryType
  deriving Repr, DecidableEq

/-- `Visualizer3D.clearScene()`: dispose every tracked object, remove it
from the scene, and empty the tracking collection. -/
def clearScene (s : SceneState) : SceneState :=
  { s with sceneObjs := s.sceneObjs.filter (fun o => decide (o ∉ s.visualObjects)),
           visualObjects := [] }

/-- The 64 bar objects (`barCount = 64`, one per angular slot). -/
def barsObjs : List VisPayload := (List.range 64).map .bars

/-- The 100 sphere objects (`sphereCount = 100`). -/
def sphereObjs : List VisPayload := (List.range 100).map .sphere

/-- The tunnel objects: `ringCount = 20` rings of `pointsPerRing = 32`. -/
def tunnelObjs : List VisPayload :=
  (List.range 20).flatMap (fun ring => (List.range 32).map (fun point => .tunnel ring point))

/-- The wave objects: a `gridSize = 32` by 32 grid of cubes. -/
def waveObjs : List VisPayload :=
  (List.range 32).flatMap (fun gx => (List.range 32).map (fun gz => .wave gx gz))

/-- `createBarsGeometry()`: clear, then push each new object to both the
scene and `this.visualObjects`. -/
def createBarsGeometry (s : SceneState) : SceneState :=
  let s := clearScene s
  { sceneObjs := s.sceneObjs ++ barsObjs,
    visualObjects := s.visualObjects ++ barsObjs, geometryType := .bars }

/-- `createSphereGeometry()`. -/
def createSphereGeometry (s : SceneState) : SceneState :=
  let s := clearScene s
  { sceneObjs := s.sceneObjs ++ sphereObjs,
    visualObjects := s.visualObjects ++ sphereObjs, geometryType := .sphere }

/-- `createTunnelGeometry()`. -/
def createTunnelGeometry (s : SceneState) : SceneState :=
  let s := clearScene s
  { sceneObjs := s.sceneObjs ++ tunnelObjs,
    visualObjects := s.visualObjects ++ tunnelObjs, geometryType := .tunnel }

/-- `createWaveGeometry()`. -/
def createWaveGeometry (s : SceneState) : SceneState :=
  let s := clearScene s
  { sceneObjs := s.sceneObjs ++ waveObjs,
    visualObjects := s.visualObjects ++ waveObjs, geometryType := .wave }

/-- The length of a rectangular double loop of objects is the product of
the loop bounds. -/
lemma length_flatMap_range {β : Type} (n m : ℕ) (f : ℕ → ℕ → β) :
    ((List.range n).flatMap (fun i => (List.range m).map (f i))).length = n * m := by
  rw [List.length_flatMap]
  rw [List.sum_eq_card_nsmul _ m ?_]
  · simp [smul_eq_mul]
  · intro x hx
    rw [List.mem_map] at hx
    obtain ⟨i, _, rfl⟩ := hx
    simp

lemma clearScene_of_tracked (s : SceneState)
    (hinv : ∀ o ∈ s.sceneObjs, o ∈ s.visualObjects) :
    clearScene s = { sceneObjs := [], visualObjects := [],
                     geometryType := s.geometryType } := by
  unfold clearScene
  have : s.sceneObjs.filter (fun o => decide (o ∉ s.visualObjects)) = [] := by
    rw [List.filter_eq_nil_iff]
    intro a ha
    simpa using hinv a ha
  rw [this]

/-- C7: starting from any state whose scene-attached visual objects are
exactly the tracked ones, each variant construction leaves the collection
and the scene holding precisely the new variant's objects — 64 for bars,
100 for sphere, 20·32 = 640 for tunnel, 32·32 = 1024 for wave — with
nothing of the previous variant left. -/
theorem geometry_variant_replacement (s : SceneState)
    (hinv : ∀ o ∈ s.sceneObjs, o ∈ s.visualObjects) :
    ((createBarsGeometry s).visualObjects.length = 64 ∧
      (createBarsGeometry s).visualObjects = barsObjs ∧
      (createBarsGeometry s).sceneObjs = barsObjs) ∧
    ((createSphereGeometry s).visualObjects.length = 100 ∧
      (createSphereGeometry s).visualObjects = sphereObjs ∧
      (createSphereGeometry s).sceneObjs = sphereObjs) ∧
    ((createTunnelGeometry s).visualObjects.length = 640 ∧
      (createTunnelGeometry s).visualObjects = tunnelObjs ∧
      (createTunnelGeometry s).sceneObjs = tunnelObjs) ∧
    ((createWaveGeometry s).visualObjects.length = 1024 ∧
      (createWaveGeometry s).visualObjects = waveObjs ∧
      (createWaveGeometry s).sceneObjs = waveObjs) := by
  have hclear := clearScene_of_tracked s hinv
  have hbars : barsObjs.length = 64 := by simp [barsObjs]
  have hsphere : sphereObjs.length = 100 := by simp [sphereObjs]
  have htunnel : tunnelObjs.length = 640 := length_flatMap_range 20 32 _
  have hwave : waveObjs.length = 1024 := length_flatMap_range 32 32 _
  unfold createBarsGeometry createSphereGeometry createTunnelGeometry
    createWaveGeometry
  rw [hclear]
  simp [hbars, hsphere, htunnel, hwave]

/-- Witness for C7 from the empty scene. -/
theorem geometry_variant_replacement_witness :
    (∀ o ∈ ([] : List VisPayload), o ∈ ([] : List VisPayload)) ∧
    (createTunnelGeometry
      { sceneObjs := [], visualObjects := [],
        geometryType := .bars }).visualObjects.length = 640 ∧
    (createWaveGeometry
      { sceneObjs := [], visualObjects := [],
        geometryType := .bars }).visualObjects.length = 1024 :=
  ⟨by simp,
    (geometry_variant_replacement
      { sceneObjs := [], visualObjects := [], geometryType := .bars }
      (by simp)).2.2.1.1,
    (geometry_variant_replacement
      { sceneObjs := [], visualObjects := [], geometryType := .bars }
      (by simp)).2.2.2.1⟩

/-! ## Idempotent stop (claim C9) -/

/-- The closure state of `PerformanceUtils.createAnimationLoop`:
`isRunning`, the last requested frame id, and whether a callback is
actually pending (`scheduled`). -/
structure AnimLoopState where
  isRunning : Bool
  animationId : Option ℕ
  scheduled : Bool
  deriving Repr, DecidableEq

/-- The loop closure's `stop()`: clear the running flag and, when a frame
id exists, cancel the pending callback (`cancelAnimationFrame`). -/
def loopStop (l : AnimLoopState) : AnimLoopState :=
  { l with isRunning := false,
           scheduled := if l.animationId.isSome then false else l.scheduled }

/-- The fields of `Visualizer2D` that `stop()` touches. -/
structure Vis2DStopState where
  isRunning : Bool
  animationLoop : Option AnimLoopState
  deriving Repr, DecidableEq

/-- `Visualizer2D.stop()`: clear the flag, then stop the loop if one
exists. -/
def stop2D (s : Vis2DStopState) : Vis2DStopState :=
  { s with isRunning := false, animationLoop := s.animationLoop.map loopStop }

/-- The fields of `Visualizer3D` that `stop()` touches. -/
structure Vis3DStopState where
  isRunning : Bool
  animationId : Option ℕ
  deriving Repr, DecidableEq

/-- `Visualizer3D.stop()`: clear the flag; if a frame id exists, cancel it
and null it out. -/
def stop3D (s : Vis3DStopState) : Vis3DStopState :=
  { s with isRunning := false,
           animationId := if s.animationId.isSome then none else s.animationId }

lemma loopStop_idem (l : AnimLoopState) : loopStop (loopStop l) = loopStop l := by
  unfold loopStop
  rcases l with ⟨r, id, sch⟩
  cases id <;> simp

/-- C9: `stop` on either visualizer is idempotent, leaves the running flag
false with no scheduled continuation (given that a pending callback always
has its frame id recorded, as the loop maintains), and is safe on a
never-started visualizer. -/
theorem stop_idempotent (s2 : Vis2DStopState) (s3 : Vis3DStopState)
    (h2 : ∀ l, s2.animationLoop = some l → l.scheduled = true → l.animationId.isSome) :
    stop2D (stop2D s2) = stop2D s2 ∧
    (stop2D s2).isRunning = false ∧
    (∀ l, (stop2D s2).animationLoop = some l →
      l.isRunning = false ∧ l.scheduled = false) ∧
    stop3D (stop3D s3) = stop3D s3 ∧
    (stop3D s3).isRunning = false ∧
    (stop3D s3).animationId = none ∧
    stop2D { isRunning := false, animationLoop := none }
      = { isRunning := false, animationLoop := none } ∧
    stop3D { isRunning := false, animationId := none }
      = { isRunning := false, animationId := none } := by
  rcases s2 with ⟨r2, lo⟩
  rcases s3 with ⟨r3, id3⟩
  refine ⟨?_, rfl, ?_, ?_, rfl, ?_, rfl, rfl⟩
  · unfold stop2D
    simp [Option.map_map, Function.comp_def, loopStop_idem]
  · intro l hl
    rcases lo with _ | l0
    · exact absurd hl (by simp [stop2D])
    · have hl0 : l = loopStop l0 := by
        simpa [stop2D] using hl.symm
      subst hl0
      have h0 := h2 l0 (by simp)
      unfold loopStop
      constructor
      · rfl
      · rcases hid : l0.animationId with _ | v
        · rcases hsch : l0.scheduled with _ | _
          · simp [hid, hsch]
          · have := h0 hsch
            rw [hid] at this
            simp at this
        · simp [hid]
  · unfold stop3D
    rcases id3 with _ | v <;> simp
  · unfold stop3D
    rcases id3 with _ | v <;> simp

/-- Witness for C9 on concrete running states. -/
theorem stop_idempotent_witness :
    (∀ l, (some ⟨true, some 7, true⟩ : Option AnimLoopState) = some l →
      l.scheduled = true → l.animationId.isSome) ∧
    stop2D (stop2D ⟨true, some ⟨true, some 7, true⟩⟩)
      = stop2D ⟨true, some ⟨true, some 7, true⟩⟩ ∧
    stop3D (stop3D ⟨true, some 3⟩) = stop3D ⟨true, some 3⟩ := by
  have key := stop_idempotent ⟨true, some ⟨true, some 7, true⟩⟩ ⟨true, some 3⟩
    (by intro l hl h
        rw [Option.some_inj] at hl
        subst hl
        rfl)
  refine ⟨?_, key.1, key.2.2.2.1⟩
  intro l hl h
  rw [Option.some_inj] at hl
  subst hl
  rfl

end MusicVisualiser
